import Mathlib

/-!
# Verification of the ClearML URL-encoding proxy (`docker/url-proxy/url_proxy.py`)

This file gives a shallow embedding of the proxy service in Lean 4 and proves
properties of it. The embedding covers:

* `fix_url_encoding` — the path-rewrite heuristic built on the Python regex
  `^/([^/]+)/([^/]+)_([^/]+)/(.*)$` (lines 41-71 of `url_proxy.py`).
  Python regex semantics modelled faithfully: `[^/]` matches any character
  except `/` (including a newline), `.` matches any character except a
  newline, and `$` (without `re.MULTILINE`) matches at the end of the string
  or immediately before a newline that ends the string.  Greedy matching with
  backtracking means the `([^/]+)_([^/]+)` pair splits the second
  slash-delimited segment at the last underscore that has at least one
  character after it within the segment.
* `proxy_request` — the request handler: target-URL construction, the
  outbound request made via the `requests` library with
  `allow_redirects=False` and `timeout=30`, response header filtering
  (`dict.pop` of the exact keys `"connection"` / `"transfer-encoding"`),
  CORS header insertion, and the `except httpx.RequestError` clause.
* `dispatch` — Starlette route matching in registration order: the catch-all
  route `/{path:path}` (registered first) and `GET /health` (registered
  second).

Strings are modelled as `List Char` where character-level reasoning is
needed, with `String` wrappers for the handler-level model.
-/

namespace UrlProxy

/-- The Python regex character class `[^/]` as a Boolean predicate: any
character other than `/` (a newline is allowed by this class). -/
def nonSlash (c : Char) : Bool := c != '/'

/-- The literal six-character replacement text `%252F` inserted by
`fix_url_encoding` (line 66 of `url_proxy.py`). -/
def pct252F : List Char := "%252F".data

/-- The first trigger substring checked on line 63 of `url_proxy.py`. -/
def ctBrainChars : List Char := "CT_BRAIN".data

/-- The second trigger substring checked on line 63 of `url_proxy.py`. -/
def multiclassChars : List Char := "multiclass_segmentation".data

/-- Matches a literal `/` at the head of the input and returns the remainder
(the regex pieces `^/` and the two later literal `/` of the pattern). -/
def afterSlash (l : List Char) : Option (List Char) :=
  match l with
  | [] => none
  | c :: t => if c = '/' then some t else none

/-- Backtracking result of the regex piece `([^/]+)_([^/]+)` applied to one
slash-free segment `s` followed by `/`: the split of `s` at the last
underscore that has at least one character after it within `s`.  Returns
`some (before, after)` where `before ++ '_' :: after = s` and `after ≠ []`;
`before` may be empty (that case is rejected by the caller, since the first
`[^/]+` group must be nonempty). -/
def splitLastUS : List Char → Option (List Char × List Char)
  | [] => none
  | c :: cs =>
    match splitLastUS cs with
    | some (b, a) => some (c :: b, a)
    | none => if c = '_' ∧ cs ≠ [] then some ([], cs) else none

/-- The regex piece `(.*)$` (no `re.MULTILINE`, no `re.DOTALL`) applied to
the tail `t` of the subject: `.` cannot cross a newline and `$` matches at
the end of the string or just before a newline ending the string.  So the
piece matches iff `t` contains no newline except possibly as its final
character, and the captured group drops that final newline. -/
def dotStarEnd (t : List Char) : Option (List Char) :=
  if '\n' ∈ t then
    if '\n' ∈ t.dropLast then none else some t.dropLast
  else some t

/-- The four captured groups of
`re.match(r"^/([^/]+)/([^/]+)_([^/]+)/(.*)$", path)` (line 56-58 of
`url_proxy.py`), or `none` when the pattern does not match.  Greedy `[^/]+`
followed by a literal `/` consumes exactly one maximal slash-free run, so
group 1 is the first slash-delimited segment (nonempty), groups 2 and 3
split the second segment at its last underscore having a nonempty remainder
(both groups nonempty), and group 4 is the tail after the third slash as
matched by `(.*)$`. -/
def reMatchGroups (path : List Char) :
    Option (List Char × List Char × List Char × List Char) :=
  (afterSlash path).bind fun t1 =>
  let part1 := t1.takeWhile nonSlash
  if part1 = [] then none else
  (afterSlash (t1.dropWhile nonSlash)).bind fun t2 =>
  let seg := t2.takeWhile nonSlash
  if seg = [] then none else
  (afterSlash (t2.dropWhile nonSlash)).bind fun t3 =>
  match splitLastUS seg with
  | none => none
  | some (part2, part3) =>
    if part2 = [] then none else
    (dotStarEnd t3).bind fun rest =>
    some (part1, part2, part3, rest)

/-- Model of `fix_url_encoding` (`url_proxy.py` lines 41-71) over character
lists.  On a regex match, Python checks membership of the trigger substrings
in the f-string `f"{part2}_{part3}"` (the whole second segment) and, when
one occurs, rebuilds the path as `f"/{part1}%252F{part2}_{part3}/{rest}"`;
otherwise the input path is returned unchanged. -/
def fix_url_encoding (path : List Char) : List Char :=
  match reMatchGroups path with
  | some (part1, part2, part3, rest) =>
    let seg := part2 ++ '_' :: part3
    if ctBrainChars <:+: seg ∨ multiclassChars <:+: seg then
      '/' :: (part1 ++ pct252F ++ seg ++ '/' :: rest)
    else path
  | none => path

/-- The rewrite `fix_url_encoding` lifted to `String` (the handler passes
the raw request path as a Python `str`). -/
def fixUrlEncodingStr (path : String) : String :=
  ⟨fix_url_encoding path.data⟩

/-! ## Structural lemmas about the regex model -/

theorem afterSlash_eq_some {l t : List Char} :
    afterSlash l = some t ↔ l = '/' :: t := by
  cases l with
  | nil => simp [afterSlash]
  | cons c cs =>
    by_cases hc : c = '/'
    · subst hc
      simp [afterSlash]
    · simp [afterSlash, hc]

theorem takeWhile_nonSlash_append {A : List Char} (r : List Char) (hA : '/' ∉ A) :
    (A ++ '/' :: r).takeWhile nonSlash = A
      ∧ (A ++ '/' :: r).dropWhile nonSlash = '/' :: r := by
  induction A with
  | nil => simp [List.takeWhile, List.dropWhile, nonSlash]
  | cons c A ih =>
    have hc : c ≠ '/' := fun h => hA (h ▸ List.mem_cons_self c A)
    have hcb : (c != '/') = true := by simp [hc]
    have ih' := ih (fun h => hA (List.mem_cons_of_mem c h))
    simp [List.takeWhile, List.dropWhile, nonSlash, hcb, ih'.1, ih'.2]

theorem splitLastUS_eq {s b a : List Char} (h : splitLastUS s = some (b, a)) :
    b ++ '_' :: a = s ∧ a ≠ [] := by
  induction s generalizing b a with
  | nil => simp [splitLastUS] at h
  | cons c cs ih =>
    simp only [splitLastUS] at h
    cases hs : splitLastUS cs with
    | some ba =>
      obtain ⟨b', a'⟩ := ba
      rw [hs] at h
      simp only [Option.some.injEq, Prod.mk.injEq] at h
      obtain ⟨hb, ha⟩ := h
      subst hb
      subst ha
      obtain ⟨hba, hne⟩ := ih hs
      exact ⟨by rw [List.cons_append, hba], hne⟩
    | none =>
      rw [hs] at h
      by_cases hcs : c = '_' ∧ cs ≠ []
      · rw [if_pos hcs] at h
        simp only [Option.some.injEq, Prod.mk.injEq] at h
        obtain ⟨hb, ha⟩ := h
        subst hb
        subst ha
        exact ⟨by rw [List.nil_append, hcs.1], hcs.2⟩
      · rw [if_neg hcs] at h
        simp at h

theorem splitLastUS_ne_none {x y : List Char} (hy : y ≠ [])
    (h : splitLastUS (x ++ '_' :: y) = none) : False := by
  induction x with
  | nil =>
    rw [List.nil_append] at h
    simp only [splitLastUS] at h
    cases hs : splitLastUS y with
    | some ba => rw [hs] at h; simp at h
    | none =>
      rw [hs] at h
      simp [hy] at h
  | cons c x ih =>
    rw [List.cons_append] at h
    simp only [splitLastUS] at h
    cases hs : splitLastUS (x ++ '_' :: y) with
    | some ba => rw [hs] at h; simp at h
    | none => exact ih hs

theorem splitLastUS_exists {x y : List Char} (hx : x ≠ []) (hy : y ≠ []) :
    ∃ b a, splitLastUS (x ++ '_' :: y) = some (b, a) ∧ b ≠ []
      ∧ b ++ '_' :: a = x ++ '_' :: y := by
  cases x with
  | nil => exact absurd rfl hx
  | cons c x =>
    rw [List.cons_append, splitLastUS]
    cases hs : splitLastUS (x ++ '_' :: y) with
    | some ba =>
      obtain ⟨b', a'⟩ := ba
      obtain ⟨hba, _⟩ := splitLastUS_eq hs
      exact ⟨c :: b', a', rfl, by simp, by rw [List.cons_append, hba]⟩
    | none => exact absurd (splitLastUS_ne_none hy hs) not_false

theorem dotStarEnd_of_no_newline {t : List Char} (h : '\n' ∉ t) :
    dotStarEnd t = some t := by
  simp [dotStarEnd, h]

theorem nonSlash_slash : nonSlash '/' = false := by decide

theorem afterSlash_cons_slash (t : List Char) : afterSlash ('/' :: t) = some t := by
  simp [afterSlash]

/-- On a path `"/" ++ A ++ "/" ++ B ++ "/" ++ rest` with `A` a nonempty
slash-free segment, `B` a slash-free segment containing an underscore with at
least one character on each side and containing a trigger substring, and
`rest` free of newlines, `fix_url_encoding` replaces the second `/` by
`%252F` and leaves everything else unchanged. -/
theorem fix_rewrites (A B rest : List Char) (hA : A ≠ []) (hAs : '/' ∉ A)
    (hBs : '/' ∉ B) (hund : ∃ x y, B = x ++ '_' :: y ∧ x ≠ [] ∧ y ≠ [])
    (htrig : ctBrainChars <:+: B ∨ multiclassChars <:+: B)
    (hrest : '\n' ∉ rest) :
    fix_url_encoding ('/' :: (A ++ '/' :: (B ++ '/' :: rest)))
      = '/' :: (A ++ pct252F ++ B ++ '/' :: rest) := by
  obtain ⟨x, y, hBxy, hx, hy⟩ := hund
  obtain ⟨b, a, hsp, hbne, hba⟩ := splitLastUS_exists hx hy
  rw [← hBxy] at hsp hba
  have ht1 := takeWhile_nonSlash_append (B ++ '/' :: rest) hAs
  have ht2 := takeWhile_nonSlash_append rest hBs
  have hBne : B ≠ [] := by rw [hBxy]; simp
  have hm : reMatchGroups ('/' :: (A ++ '/' :: (B ++ '/' :: rest)))
      = some (A, b, a, rest) := by
    simp only [reMatchGroups, afterSlash_cons_slash, Option.some_bind, ht1.1, ht1.2,
      ht2.1, ht2.2, if_neg hA, if_neg hBne, hsp, if_neg hbne,
      dotStarEnd_of_no_newline hrest]
  simp only [fix_url_encoding, hm, hba, if_pos htrig]

theorem append_slash_inj {A A' r r' : List Char} (hA : '/' ∉ A) (hA' : '/' ∉ A')
    (h : A ++ '/' :: r = A' ++ '/' :: r') : A = A' ∧ r = r' := by
  induction A generalizing A' with
  | nil =>
    cases A' with
    | nil => simpa using h
    | cons c t =>
      rw [List.nil_append, List.cons_append] at h
      obtain ⟨h1, _⟩ := List.cons.inj h
      exact absurd (by rw [h1]; exact List.mem_cons_self _ _) hA'
  | cons c t ih =>
    cases A' with
    | nil =>
      rw [List.cons_append, List.nil_append] at h
      obtain ⟨h1, _⟩ := List.cons.inj h
      exact absurd (by rw [← h1]; exact List.mem_cons_self _ _) hA
    | cons c' t' =>
      rw [List.cons_append, List.cons_append] at h
      obtain ⟨h1, h2⟩ := List.cons.inj h
      have hrec := ih (fun hm => hA (List.mem_cons_of_mem c hm))
        (fun hm => hA' (List.mem_cons_of_mem c' hm)) h2
      exact ⟨by rw [h1, hrec.1], hrec.2⟩

/-- Inversion: a successful regex match decomposes the path into a leading
slash, a nonempty slash-free first segment, a slash, a slash-free second
segment split by the underscore into the two nonempty groups, a slash, and a
tail. -/
theorem reMatchGroups_inv {s p1 p2 p3 rest : List Char}
    (h : reMatchGroups s = some (p1, p2, p3, rest)) :
    ∃ t3, s = '/' :: (p1 ++ '/' :: ((p2 ++ '_' :: p3) ++ '/' :: t3))
      ∧ p1 ≠ [] ∧ '/' ∉ p1 ∧ '/' ∉ (p2 ++ '_' :: p3) ∧ p2 ≠ [] := by
  rw [reMatchGroups] at h
  cases hs1 : afterSlash s with
  | none => rw [hs1] at h; simp at h
  | some t1 =>
  rw [hs1] at h
  simp only [Option.some_bind] at h
  by_cases hp1 : t1.takeWhile nonSlash = []
  · rw [if_pos hp1] at h; simp at h
  rw [if_neg hp1] at h
  cases hs2 : afterSlash (t1.dropWhile nonSlash) with
  | none => rw [hs2] at h; simp at h
  | some t2 =>
  rw [hs2] at h
  simp only [Option.some_bind] at h
  by_cases hsg : t2.takeWhile nonSlash = []
  · rw [if_pos hsg] at h; simp at h
  rw [if_neg hsg] at h
  cases hs3 : afterSlash (t2.dropWhile nonSlash) with
  | none => rw [hs3] at h; simp at h
  | some t3 =>
  rw [hs3] at h
  simp only [Option.some_bind] at h
  cases hsp : splitLastUS (t2.takeWhile nonSlash) with
  | none => rw [hsp] at h; simp at h
  | some ba =>
  obtain ⟨b, a⟩ := ba
  rw [hsp] at h
  by_cases hb : b = []
  · simp [hb] at h
  simp only [if_neg hb] at h
  cases hde : dotStarEnd t3 with
  | none => rw [hde] at h; simp at h
  | some r =>
  rw [hde] at h
  simp only [Option.some_bind, Option.some.injEq, Prod.mk.injEq] at h
  obtain ⟨he1, he2, he3, he4⟩ := h
  subst he1
  subst he2
  subst he3
  subst he4
  have hseq : b ++ '_' :: a = t2.takeWhile nonSlash := (splitLastUS_eq hsp).1
  have hst1 : s = '/' :: t1 := afterSlash_eq_some.mp hs1
  have hd1 : t1.dropWhile nonSlash = '/' :: t2 := afterSlash_eq_some.mp hs2
  have hd2 : t2.dropWhile nonSlash = '/' :: t3 := afterSlash_eq_some.mp hs3
  have ht1eq : t1 = t1.takeWhile nonSlash ++ '/' :: t2 := by
    conv_lhs => rw [← List.takeWhile_append_dropWhile (p := nonSlash) (l := t1)]
    rw [hd1]
  have ht2eq : t2 = t2.takeWhile nonSlash ++ '/' :: t3 := by
    conv_lhs => rw [← List.takeWhile_append_dropWhile (p := nonSlash) (l := t2)]
    rw [hd2]
  refine ⟨t3, ?_, hp1, ?_, ?_, hb⟩
  · rw [hseq, hst1]
    conv_lhs => rw [ht1eq]
    conv_lhs => rw [ht2eq]
  · intro hmem
    have := List.mem_takeWhile_imp hmem
    rw [nonSlash_slash] at this
    cases this
  · intro hmem
    rw [hseq] at hmem
    have := List.mem_takeWhile_imp hmem
    rw [nonSlash_slash] at this
    cases this

/-! ## Claims about `fix_url_encoding` -/

/-- The four-part pattern of the rewrite rule: a leading `/`, a nonempty
slash-free first segment, a `/`, a slash-free second segment containing an
underscore, a `/`, and an arbitrary tail. -/
def MatchesShape (s : List Char) : Prop :=
  ∃ A B rest, s = '/' :: (A ++ '/' :: (B ++ '/' :: rest))
    ∧ A ≠ [] ∧ '/' ∉ A ∧ '/' ∉ B ∧ '_' ∈ B

/-- C1 (counterexample): the claim as stated fails on two inputs.
(1) `"//CT_BRAIN_x/r"` is `'/' + segmentA + '/' + segmentB + '/' + rest` with
`segmentA = ""` (which contains no `/`), `segmentB = "CT_BRAIN_x"` (underscore
with a character on each side, contains `CT_BRAIN`), `rest = "r"`; the claim
demands the output `"/%252FCT_BRAIN_x/r"`, but the regex group `([^/]+)` for
segmentA requires at least one character, so `fix_url_encoding` returns the
input unchanged.
(2) `"/A/CT_BRAIN_x/r\nz"` has `segmentA = "A"`, `segmentB = "CT_BRAIN_x"` and
the arbitrary tail `rest = "r\nz"`; the claim demands
`"/A%252FCT_BRAIN_x/r\nz"`, but Python `.` does not match a newline and `$`
only allows a newline as the final character, so the regex does not match and
`fix_url_encoding` returns the input unchanged. -/
theorem c1_counterexample :
    (fix_url_encoding ("//CT_BRAIN_x/r".data) = "//CT_BRAIN_x/r".data
      ∧ "//CT_BRAIN_x/r".data ≠ "/%252FCT_BRAIN_x/r".data)
    ∧ (fix_url_encoding ("/A/CT_BRAIN_x/r\nz".data) = "/A/CT_BRAIN_x/r\nz".data
      ∧ "/A/CT_BRAIN_x/r\nz".data ≠ "/A%252FCT_BRAIN_x/r\nz".data) := by
  exact ⟨⟨by decide, by decide⟩, ⟨by decide, by decide⟩⟩

/-- C1 (amended): for every inbound path `'/' + segmentA + '/' + segmentB +
'/' + rest` where segmentA is nonempty and contains no `/`, segmentB contains
no `/` and contains an underscore with at least one character on each side,
rest contains no newline character (it may contain slashes), and segmentB
contains the substring `CT_BRAIN` or the substring
`multiclass_segmentation`, `fix_url_encoding` returns
`'/' + segmentA + "%252F" + segmentB + '/' + rest`, every character other
than the replaced second `/` byte-for-byte identical to the input. -/
theorem c1_rewrite_amended (A B rest : List Char) (hA : A ≠ []) (hAs : '/' ∉ A)
    (hBs : '/' ∉ B) (hund : ∃ x y, B = x ++ '_' :: y ∧ x ≠ [] ∧ y ≠ [])
    (htrig : ctBrainChars <:+: B ∨ multiclassChars <:+: B)
    (hrest : '\n' ∉ rest) :
    fix_url_encoding ('/' :: (A ++ '/' :: (B ++ '/' :: rest)))
      = '/' :: (A ++ pct252F ++ B ++ '/' :: rest) :=
  fix_rewrites A B rest hA hAs hBs hund htrig hrest

/-- C1 (witness): the amended theorem applied to the spec's example input
`/3D Brainz/CT_BRAIN_multiclass_segmentation/task123/model.pt`. -/
theorem c1_witness :
    fix_url_encoding ("/3D Brainz/CT_BRAIN_multiclass_segmentation/task123/model.pt".data)
      = "/3D Brainz%252FCT_BRAIN_multiclass_segmentation/task123/model.pt".data := by
  have e1 : "/3D Brainz/CT_BRAIN_multiclass_segmentation/task123/model.pt".data
      = '/' :: ("3D Brainz".data ++ '/' :: ("CT_BRAIN_multiclass_segmentation".data
          ++ '/' :: "task123/model.pt".data)) := by decide
  have e2 : "/3D Brainz%252FCT_BRAIN_multiclass_segmentation/task123/model.pt".data
      = '/' :: ("3D Brainz".data ++ pct252F ++ "CT_BRAIN_multiclass_segmentation".data
          ++ '/' :: "task123/model.pt".data) := by decide
  rw [e1, e2]
  exact c1_rewrite_amended _ _ _ (by decide) (by decide) (by decide)
    ⟨"CT".data, "BRAIN_multiclass_segmentation".data, by decide, by decide, by decide⟩
    (Or.inl (by decide)) (by decide)

/-- C5: every string that either does not match the four-part shape, or
matches it but whose second segment contains neither `CT_BRAIN` nor
`multiclass_segmentation`, is returned by `fix_url_encoding` unchanged. -/
theorem c5_identity_outside_pattern (s : List Char)
    (h : (¬ MatchesShape s) ∨
      (∃ A B rest, s = '/' :: (A ++ '/' :: (B ++ '/' :: rest)) ∧ A ≠ [] ∧ '/' ∉ A
        ∧ '/' ∉ B ∧ '_' ∈ B ∧ ¬ (ctBrainChars <:+: B) ∧ ¬ (multiclassChars <:+: B))) :
    fix_url_encoding s = s := by
  cases hm : reMatchGroups s with
  | none => simp [fix_url_encoding, hm]
  | some g =>
    obtain ⟨p1, p2, p3, rest⟩ := g
    by_cases ht : ctBrainChars <:+: (p2 ++ '_' :: p3) ∨ multiclassChars <:+: (p2 ++ '_' :: p3)
    · exfalso
      obtain ⟨t3, hdec, hp1ne, hp1s, hsegs, _⟩ := reMatchGroups_inv hm
      have hund : '_' ∈ p2 ++ '_' :: p3 :=
        List.mem_append_right _ (List.mem_cons_self _ _)
      cases h with
      | inl hns => exact hns ⟨p1, p2 ++ '_' :: p3, t3, hdec, hp1ne, hp1s, hsegs, hund⟩
      | inr hex =>
        obtain ⟨A, B, r, heq, _, hAs, hBs, _, hn1, hn2⟩ := hex
        rw [hdec] at heq
        obtain ⟨_, h2⟩ := List.cons.inj heq
        obtain ⟨_, h3⟩ := append_slash_inj hp1s hAs h2
        obtain ⟨hsegB, _⟩ := append_slash_inj hsegs hBs h3
        rw [hsegB] at ht
        cases ht with
        | inl htc => exact hn1 htc
        | inr htm => exact hn2 htm
    · simp only [fix_url_encoding, hm, if_neg ht]

/-- C5 (witness): the theorem applied to the spec's example `/foo/bar_baz/qux`
(matches the pattern, no trigger substring). -/
theorem c5_witness :
    fix_url_encoding ("/foo/bar_baz/qux".data) = "/foo/bar_baz/qux".data :=
  c5_identity_outside_pattern _ (Or.inr
    ⟨"foo".data, "bar_baz".data, "qux".data, by decide, by decide, by decide,
      by decide, by decide, by decide, by decide⟩)

/-- C9: a path `'/' + segmentA + '/' + segmentB + '/'` with nothing after the
third slash is still rewritten when segmentA is a nonempty slash-free segment
and segmentB is a slash-free segment containing an underscore with nonempty
sides and a trigger substring: the `rest` component of the pattern may be the
empty string. -/
theorem c9_rewrite_empty_tail (A B : List Char) (hA : A ≠ []) (hAs : '/' ∉ A)
    (hBs : '/' ∉ B) (hund : ∃ x y, B = x ++ '_' :: y ∧ x ≠ [] ∧ y ≠ [])
    (htrig : ctBrainChars <:+: B ∨ multiclassChars <:+: B) :
    fix_url_encoding ('/' :: (A ++ '/' :: (B ++ ['/'])))
      = '/' :: (A ++ pct252F ++ B ++ ['/']) :=
  fix_rewrites A B [] hA hAs hBs hund htrig (by simp)

/-- C9 (witness): the theorem applied to `/A/CT_BRAIN_x/`, giving
`/A%252FCT_BRAIN_x/`. -/
theorem c9_witness :
    fix_url_encoding ("/A/CT_BRAIN_x/".data) = "/A%252FCT_BRAIN_x/".data := by
  have e1 : "/A/CT_BRAIN_x/".data
      = '/' :: ("A".data ++ '/' :: ("CT_BRAIN_x".data ++ ['/'])) := by decide
  have e2 : "/A%252FCT_BRAIN_x/".data
      = '/' :: ("A".data ++ pct252F ++ "CT_BRAIN_x".data ++ ['/']) := by decide
  rw [e1, e2]
  exact c9_rewrite_empty_tail _ _ (by decide) (by decide) (by decide)
    ⟨"CT_BRAIN".data, "x".data, by decide, by decide, by decide⟩
    (Or.inl (by decide))

/-- C10: every string that does not begin with the character `/` is returned
unchanged by `fix_url_encoding`, even if it contains a trigger substring: the
pattern is anchored at the start of the string. -/
theorem c10_no_leading_slash (s : List Char) (h : s.head? ≠ some '/') :
    fix_url_encoding s = s := by
  have hm : reMatchGroups s = none := by
    cases hs : afterSlash s with
    | none => rw [reMatchGroups, hs]; rfl
    | some t => exact absurd (by rw [afterSlash_eq_some.mp hs]; rfl) h
  simp [fix_url_encoding, hm]

/-- C10 (witness): the theorem applied to `A/CT_BRAIN_x/rest`, which contains
a trigger substring and slash-delimited underscore segments but no leading
slash. -/
theorem c10_witness :
    fix_url_encoding ("A/CT_BRAIN_x/rest".data) = "A/CT_BRAIN_x/rest".data :=
  c10_no_leading_slash _ (by decide)

/-! ## The request relay (`proxy_request`, `url_proxy.py` lines 74-131) -/

/-- An inbound HTTP request as seen by the handler: the method, the
`{path:path}` capture (the request path without its leading slash), the raw
query string, the header mapping and the body (kept abstract as a string). -/
structure InboundRequest where
  method : String
  path : String
  query : String
  headers : List (String × String)
  body : String
deriving DecidableEq

/-- The outbound call made on lines 100-107:
`requests.request(method=..., url=target_url, headers=dict(request.headers),
data=body, allow_redirects=False, timeout=30)`. -/
structure OutboundRequest where
  method : String
  url : String
  headers : List (String × String)
  data : String
  allowRedirects : Bool
  timeout : Nat
deriving DecidableEq

/-- An upstream response as exposed by the `requests` library: status code,
header mapping and body.  `requests` keeps the header names in the casing the
upstream sent them with (its `CaseInsensitiveDict` stores the cased name and
iterates with it, collapsing case-insensitive duplicates), so the mapping is
modelled as an association list of cased names. -/
structure UpstreamResponse where
  status : Nat
  headers : List (String × String)
  content : String
deriving DecidableEq

/-- The Python exception classes relevant to the handler.
`requestsRequestException` models `requests.exceptions.RequestException`
(the base class of the `requests` transport failures `ConnectionError`,
`Timeout`, …), which derives from `IOError`; `httpxRequestError` models
`httpx.RequestError`, which derives from `httpx.HTTPError`.  Neither class
is a subclass of the other. -/
inductive PyException where
  | requestsRequestException (msg : String)
  | httpxRequestError (msg : String)
deriving DecidableEq

/-- Model of `isinstance(e, httpx.RequestError)`: which exceptions the
`except httpx.RequestError` clause on line 129 catches.  A transport failure
raised by `requests.request` is a `requests.exceptions.RequestException`,
which is not an instance of `httpx.RequestError`. -/
def isHttpxRequestError : PyException → Bool
  | .httpxRequestError _ => true
  | .requestsRequestException _ => false

/-- The message `str(e)` of the caught exception. -/
def pyExcMessage : PyException → String
  | .httpxRequestError m => m
  | .requestsRequestException m => m

/-- The response the handler returns to its caller. -/
structure HandlerResponse where
  status : Nat
  headers : List (String × String)
  content : String
deriving DecidableEq

/-- Model of `d.pop(k, None)` on a Python dict (unique keys), as an association-list
operation: remove the entry whose key equals `k` exactly (Python dict lookup
is case-sensitive). -/
def dictPop (k : String) (d : List (String × String)) : List (String × String) :=
  d.filter (fun p => p.1 != k)

/-- Model of `d[k] = v` on a Python dict, as an association-list operation: override
the entry whose key equals `k` exactly when present, otherwise append a new
entry at the end. -/
def dictSet (k v : String) (d : List (String × String)) : List (String × String) :=
  if ∃ p ∈ d, p.1 = k then d.map (fun p => if p.1 = k then (k, v) else p)
  else d ++ [(k, v)]

/-- Lines 113-125 of `url_proxy.py`: `headers = dict(response.headers)`
(which preserves the upstream's original header-name casing, since
`requests.structures.CaseInsensitiveDict.__iter__` yields the cased keys),
then `headers.pop("connection", None)` and
`headers.pop("transfer-encoding", None)` — case-sensitive `dict.pop` on the
exact lowercase names — then assignment of the three CORS headers. -/
def relayHeaders (h : List (String × String)) : List (String × String) :=
  dictSet ("Access-Control-Allow-Headers")
    "DNT,User-Agent,X-Requested-With,If-Modified-Since,Cache-Control,Content-Type,Range,Authorization"
    (dictSet ("Access-Control-Allow-Methods") "GET, POST, OPTIONS, DELETE, PUT"
      (dictSet ("Access-Control-Allow-Origin") "*"
        (dictPop ("transfer-encoding") (dictPop ("connection") h))))

/-- Lines 80-88: the target URL `http://<host>:<port><fixed_path>`, with
`?<query>` appended exactly when the inbound query string is nonempty. -/
def buildTargetUrl (host : String) (port : Nat) (fixedPath query : String) : String :=
  let u := "http://" ++ host ++ ":" ++ toString port ++ fixedPath
  if query ≠ "" then u ++ "?" ++ query else u

/-- The outbound request the handler constructs (lines 80-107): the original
path is `"/" + path`, rewritten by `fix_url_encoding`; the upstream call uses
the same method, headers and body, with `allow_redirects=False` and
`timeout=30`. -/
def mkOutbound (host : String) (port : Nat) (req : InboundRequest) : OutboundRequest :=
  { method := req.method
    url := buildTargetUrl host port (fixUrlEncodingStr ("/" ++ req.path)) req.query
    headers := req.headers
    data := req.body
    allowRedirects := false
    timeout := 30 }

/-- The handler `proxy_request` (lines 74-131).  The upstream interaction is
abstracted as a function from the outbound request to either a response or a
raised exception.  On success the handler relays status and body with
filtered headers plus CORS; a raised exception is caught by the
`except httpx.RequestError` clause only when it is an instance of
`httpx.RequestError` — any other exception (in particular every `requests`
transport failure) propagates out of the handler unhandled, modelled by
`Except.error`. -/
def proxy_request (host : String) (port : Nat)
    (upstream : OutboundRequest → Except PyException UpstreamResponse)
    (req : InboundRequest) : Except PyException HandlerResponse :=
  match upstream (mkOutbound host port req) with
  | .ok response =>
    .ok { status := response.status
          headers := relayHeaders response.headers
          content := response.content }
  | .error e =>
    if isHttpxRequestError e then
      .ok { status := 502, headers := [("Content-Type", "text/plain")],
            content := "Proxy error: " ++ pyExcMessage e }
    else .error e

/-! ## Routing (`url_proxy.py` lines 74 and 134) -/

/-- The two handlers registered on the FastAPI application. -/
inductive RouteTarget where
  | proxyHandler (captured : String)
  | healthHandler
deriving DecidableEq

/-- The methods of the catch-all route (line 74). -/
def proxyMethods : List String := ["GET", "POST", "PUT", "DELETE", "HEAD", "OPTIONS"]

/-- The catch-all route `@app.api_route("/{path:path}", methods=[...])`
(line 74).  Starlette compiles the path `/{path:path}` to the regex
`^/(?P<path>.*)$`, which matches every request path and captures everything
after the leading slash. -/
def routeCatchAll (method rawPath : String) : Option RouteTarget :=
  match rawPath.data with
  | '/' :: t => if method ∈ proxyMethods then some (RouteTarget.proxyHandler ⟨t⟩) else none
  | _ => none

/-- The health route `@app.get("/health")` (line 134). -/
def routeHealth (method rawPath : String) : Option RouteTarget :=
  if rawPath = "/health" ∧ method = "GET" then some RouteTarget.healthHandler else none

/-- Starlette dispatch: routes are tried in registration order and the first
full match wins.  The catch-all proxy route (line 74) is registered before
the health route (line 134). -/
def dispatch (method rawPath : String) : Option RouteTarget :=
  match routeCatchAll method rawPath with
  | some t => some t
  | none => routeHealth method rawPath

/-- The static response of `health_check` (lines 134-137): FastAPI serializes
the returned dict as JSON with status 200. -/
def healthResponse : HandlerResponse :=
  { status := 200
    headers := [("content-type", "application/json")]
    content := "\x7b\"status\":\"healthy\",\"service\":\"clearml-url-proxy\"\x7d" }

/-- The application: dispatch the inbound request to the first matching route
and run its handler; `none` means no route matched. -/
def serve (host : String) (port : Nat)
    (upstream : OutboundRequest → Except PyException UpstreamResponse)
    (method rawPath query : String) (headers : List (String × String))
    (body : String) : Option (Except PyException HandlerResponse) :=
  match dispatch method rawPath with
  | some (RouteTarget.proxyHandler captured) =>
    some (proxy_request host port upstream ⟨method, captured, query, headers, body⟩)
  | some RouteTarget.healthHandler => some (Except.ok healthResponse)
  | none => none

/-! ## Lemmas about the dict operations -/

theorem mem_dictSet_self (k v : String) (d : List (String × String)) :
    (k, v) ∈ dictSet k v d := by
  unfold dictSet
  split
  · rename_i h
    obtain ⟨p, hp, hpk⟩ := h
    exact List.mem_map.mpr ⟨p, hp, by rw [if_pos hpk]⟩
  · exact List.mem_append_right _ (List.mem_cons_self _ _)

theorem mem_dictSet_of_ne {p : String × String} {d : List (String × String)}
    (k v : String) (hne : p.1 ≠ k) (hp : p ∈ d) : p ∈ dictSet k v d := by
  unfold dictSet
  split
  · exact List.mem_map.mpr ⟨p, hp, by rw [if_neg hne]⟩
  · exact List.mem_append_left _ hp

/-! ## Claims about the relay -/

/-- C2 (code bug): a transport-level failure of the upstream call is raised
by the `requests` library as a `requests.exceptions.RequestException`, but
the handler's `except` clause (line 129) names `httpx.RequestError`, an
unrelated class, so the exception propagates out of the handler unhandled
(`Except.error`) instead of producing the claimed 502 `text/plain`
response. -/
theorem c2_transport_failure_unhandled :
    proxy_request ("fileserver") 8081
      (fun _ => Except.error (PyException.requestsRequestException ("Connection refused")))
      ⟨"GET", "files/a.txt", "", [], ""⟩
      = Except.error (PyException.requestsRequestException ("Connection refused")) := rfl

/-- C3 (code bug): the catch-all route `/{path:path}` is registered (line 74)
before `GET /health` (line 134) and matches the path `/health` with method
`GET`, so dispatch never reaches `health_check`: `GET /health` is proxied to
the upstream, and the response tracks the upstream (404 when the upstream
answers 404, an unhandled exception when the upstream is unreachable) instead
of the static healthy JSON with status 200. -/
theorem c3_health_shadowed :
    dispatch ("GET") "/health" = some (RouteTarget.proxyHandler ("health"))
    ∧ serve ("fileserver") 8081 (fun _ => Except.ok ⟨404, [], "not found"⟩)
        "GET" "/health" "" [] ""
        = some (Except.ok ⟨404, relayHeaders [], "not found"⟩)
    ∧ serve ("fileserver") 8081
        (fun _ => Except.error (PyException.requestsRequestException ("Connection refused")))
        "GET" "/health" "" [] ""
        = some (Except.error (PyException.requestsRequestException ("Connection refused")))
    ∧ (⟨404, relayHeaders [], "not found"⟩ : HandlerResponse) ≠ healthResponse := by
  refine ⟨rfl, rfl, rfl, by decide⟩

/-- C4 (code bug): `headers = dict(response.headers)` keeps the upstream's
original header-name casing and `dict.pop("connection", None)` /
`dict.pop("transfer-encoding", None)` are case-sensitive, so upstream
`Connection` and `Transfer-Encoding` headers in their standard casing are NOT
removed and appear in the relayed response; only exactly-lowercase variants
are removed. -/
theorem c4_hop_headers_not_removed :
    proxy_request ("fileserver") 8081
      (fun _ => Except.ok ⟨200,
        [("Connection", "keep-alive"), ("Transfer-Encoding", "chunked"),
          ("Content-Type", "text/html")], "body"⟩)
      ⟨"GET", "files/a.txt", "", [], ""⟩
      = Except.ok ⟨200,
          relayHeaders [("Connection", "keep-alive"), ("Transfer-Encoding", "chunked"),
            ("Content-Type", "text/html")], "body"⟩
    ∧ ("Connection", "keep-alive")
        ∈ relayHeaders [("Connection", "keep-alive"), ("Transfer-Encoding", "chunked"),
            ("Content-Type", "text/html")]
    ∧ ("Transfer-Encoding", "chunked")
        ∈ relayHeaders [("Connection", "keep-alive"), ("Transfer-Encoding", "chunked"),
            ("Content-Type", "text/html")]
    ∧ ("connection", "keep-alive")
        ∉ relayHeaders [("connection", "keep-alive"), ("Content-Type", "text/html")] := by
  refine ⟨rfl, by decide, by decide, by decide⟩

/-- C6: for every successfully relayed upstream response, the relayed
response contains `Access-Control-Allow-Origin: *`,
`Access-Control-Allow-Methods: GET, POST, OPTIONS, DELETE, PUT` and the
`Access-Control-Allow-Headers` value enumerating DNT, User-Agent,
X-Requested-With, If-Modified-Since, Cache-Control, Content-Type, Range and
Authorization, regardless of the headers the upstream sent. -/
theorem c6_cors_headers (host : String) (port : Nat)
    (upstream : OutboundRequest → Except PyException UpstreamResponse)
    (req : InboundRequest) (resp : UpstreamResponse)
    (hup : upstream (mkOutbound host port req) = Except.ok resp) :
    ∃ r, proxy_request host port upstream req = Except.ok r
      ∧ ("Access-Control-Allow-Origin", "*") ∈ r.headers
      ∧ ("Access-Control-Allow-Methods", "GET, POST, OPTIONS, DELETE, PUT") ∈ r.headers
      ∧ ("Access-Control-Allow-Headers",
          "DNT,User-Agent,X-Requested-With,If-Modified-Since,Cache-Control,Content-Type,Range,Authorization")
          ∈ r.headers := by
  have hpr : proxy_request host port upstream req
      = Except.ok ⟨resp.status, relayHeaders resp.headers, resp.content⟩ := by
    simp only [proxy_request, hup]
  refine ⟨_, hpr, ?_, ?_, ?_⟩
  · show ("Access-Control-Allow-Origin", "*") ∈ relayHeaders resp.headers
    unfold relayHeaders
    exact mem_dictSet_of_ne _ _ (by decide)
      (mem_dictSet_of_ne _ _ (by decide) (mem_dictSet_self _ _ _))
  · show ("Access-Control-Allow-Methods", "GET, POST, OPTIONS, DELETE, PUT")
      ∈ relayHeaders resp.headers
    unfold relayHeaders
    exact mem_dictSet_of_ne _ _ (by decide) (mem_dictSet_self _ _ _)
  · show ("Access-Control-Allow-Headers",
        "DNT,User-Agent,X-Requested-With,If-Modified-Since,Cache-Control,Content-Type,Range,Authorization")
      ∈ relayHeaders resp.headers
    unfold relayHeaders
    exact mem_dictSet_self _ _ _

/-- C6 (witness): the theorem applied to a concrete upstream response that
carries none of the CORS headers. -/
theorem c6_witness :
    ∃ r, proxy_request ("fileserver") 8081
        (fun _ => Except.ok ⟨200, [("Content-Type", "text/html")], "ok"⟩)
        ⟨"GET", "files/a.txt", "", [], ""⟩ = Except.ok r
      ∧ ("Access-Control-Allow-Origin", "*") ∈ r.headers
      ∧ ("Access-Control-Allow-Methods", "GET, POST, OPTIONS, DELETE, PUT") ∈ r.headers
      ∧ ("Access-Control-Allow-Headers",
          "DNT,User-Agent,X-Requested-With,If-Modified-Since,Cache-Control,Content-Type,Range,Authorization")
          ∈ r.headers :=
  c6_cors_headers ("fileserver") 8081 _ _ _ rfl

/-- C7: the upstream call is made with redirect-following disabled
(`allow_redirects=False`), and every upstream response — 3xx redirects
included — has its status code and body copied verbatim into the response
returned to the caller. -/
theorem c7_redirects_relayed (host : String) (port : Nat)
    (upstream : OutboundRequest → Except PyException UpstreamResponse)
    (req : InboundRequest) (resp : UpstreamResponse)
    (hup : upstream (mkOutbound host port req) = Except.ok resp) :
    (mkOutbound host port req).allowRedirects = false
    ∧ ∃ r, proxy_request host port upstream req = Except.ok r
        ∧ r.status = resp.status ∧ r.content = resp.content := by
  have hpr : proxy_request host port upstream req
      = Except.ok ⟨resp.status, relayHeaders resp.headers, resp.content⟩ := by
    simp only [proxy_request, hup]
  exact ⟨rfl, ⟨_, hpr, rfl, rfl⟩⟩

/-- C7 (witness): the theorem applied to a concrete 302 redirect response
from the upstream. -/
theorem c7_witness :
    (mkOutbound ("fileserver") 8081 ⟨"GET", "files/a.txt", "", [], ""⟩).allowRedirects = false
    ∧ ∃ r, proxy_request ("fileserver") 8081
          (fun _ => Except.ok ⟨302, [("Location", "http://other/")], "redirecting"⟩)
          ⟨"GET", "files/a.txt", "", [], ""⟩ = Except.ok r
        ∧ r.status = 302 ∧ r.content = "redirecting" :=
  c7_redirects_relayed ("fileserver") 8081 _ _ ⟨302, [("Location", "http://other/")], "redirecting"⟩ rfl

/-- C8: the target URL of the outbound request is exactly
`http://<host>:<port>` followed by the rewritten path, with `?<query>`
appended verbatim if and only if the inbound query string is nonempty. -/
theorem c8_target_url (host : String) (port : Nat) (req : InboundRequest) :
    (req.query ≠ "" → (mkOutbound host port req).url
        = "http://" ++ host ++ ":" ++ toString port
          ++ fixUrlEncodingStr ("/" ++ req.path) ++ "?" ++ req.query)
    ∧ (req.query = "" → (mkOutbound host port req).url
        = "http://" ++ host ++ ":" ++ toString port
          ++ fixUrlEncodingStr ("/" ++ req.path)) := by
  constructor
  · intro h
    simp only [mkOutbound, buildTargetUrl, if_pos h]
  · intro h
    simp only [mkOutbound, buildTargetUrl, h]
    simp

/-- C8 (witness): the theorem applied to a request to
`/seg1/CT_BRAIN_x/tail?download=true` — the target URL ends in
`tail?download=true` with the query preserved verbatim across rewriting. -/
theorem c8_witness :
    (mkOutbound ("fileserver") 8081
        ⟨"GET", "seg1/CT_BRAIN_x/tail", "download=true", [], ""⟩).url
      = "http://fileserver:8081/seg1%252FCT_BRAIN_x/tail?download=true" := by
  have h := (c8_target_url ("fileserver") 8081
    ⟨"GET", "seg1/CT_BRAIN_x/tail", "download=true", [], ""⟩).1 (by decide)
  rw [h]
  decide

end UrlProxy
